import Mathlib

/-!
# Verification of the pyradigm `BaseDataset` container (`pyradigm/base.py`)

Shallow embedding of the core container: an ordered, key-addressed collection
of samplets with three parallel mappings (`data`, `targets`, `classes`) plus
derived metadata (`num_features`, `dtype`, `feature_names`, `description`).

Modelling conventions:
* Python `OrderedDict`s are association lists `List (Nat × α)` (samplet ids are
  modelled as `Nat`); insertion keeps an existing key in place and appends a
  fresh key at the end, exactly like a Python dict.
* Feature scalars are `Val` (an integer or a rational standing for a float);
  numpy compares values numerically across dtypes, so value equality is
  equality of the rational value.
* The Python *container* type of a vector (`np.ndarray`, `list`, or another
  array-like with a `.size` attribute such as a pandas `Series`) is `PyType`;
  `type(features)` after `check_features` is always `ndarray`.
* Mutating methods are state transformers `Dataset → args → Dataset × Option PyError`
  returning the post-state at the moment the method returns or raises, so that
  mutation happening before an exception is visible.
* Exceptions are the constructors of `PyError`.
-/

deriving instance DecidableEq for Except

namespace Pyradigm

/-- A numpy scalar: an integer or a float (modelled exactly as a rational). -/
inductive Val where
  | vint (n : Int) : Val
  | vfloat (q : Rat) : Val
deriving DecidableEq

/-- The numeric value of a scalar; numpy comparisons are numeric across dtypes. -/
def valToRat : Val → Rat
  | .vint n => (n : Rat)
  | .vfloat q => q

/-- The element kind (dtype family) of a scalar. -/
inductive ElemKind where
  | kint : ElemKind
  | kfloat : ElemKind
deriving DecidableEq

/-- Element kind of a `Val`. -/
def Val.kind : Val → ElemKind
  | .vint _ => .kint
  | .vfloat _ => .kfloat

/-- Python container types a feature vector can live in.  `pyseries` stands for
any non-ndarray array-like that still has a `.size` attribute. -/
inductive PyType where
  | ndarray : PyType
  | pylist : PyType
  | pyseries : PyType
deriving DecidableEq

/-- The Python exception classes raised by the container. -/
inductive PyError where
  | valueError : PyError
  | typeError : PyError
  | keyError : PyError
  | indexError : PyError
  | unboundLocalError : PyError
  | attributeError : PyError
deriving DecidableEq

/-- The state of a `BaseDataset` instance: the three ordered mappings and the
metadata fields `__num_features`, `__dtype`, `__feature_names`, `__description`. -/
structure Dataset where
  data : List (Nat × List Val)
  targets : List (Nat × Int)
  classes : List (Nat × String)
  num_features : Nat
  dtype : Option PyType
  feature_names : Option (List String)
  description : String
deriving DecidableEq

/-- The empty constructor (`data=targets=classes=None` branch of `__init__`). -/
def emptyDataset : Dataset :=
  { data := [], targets := [], classes := [], num_features := 0,
    dtype := none, feature_names := none, description := "" }

/-- Keys of an ordered mapping, in insertion order (`list(d)`). -/
def keysOf {α : Type} (l : List (Nat × α)) : List Nat :=
  l.map Prod.fst

/-- Dict lookup `d[k]` (first matching key). -/
def odLookup {α : Type} (l : List (Nat × α)) (k : Nat) : Option α :=
  match l with
  | [] => none
  | (k', v) :: rest => if k = k' then some v else odLookup rest k

/-- Dict assignment `d[k] = v`: an existing key keeps its position, a fresh key
is appended at the end (Python dict insertion-order semantics). -/
def odInsert {α : Type} (k : Nat) (v : α) (l : List (Nat × α)) : List (Nat × α) :=
  match l with
  | [] => [(k, v)]
  | (k', v') :: rest =>
      if k = k' then (k, v) :: rest else (k', v') :: odInsert k v rest

/-- Dict removal `d.pop(k)`: removes the entry with key `k` (first occurrence). -/
def odErase {α : Type} (l : List (Nat × α)) (k : Nat) : List (Nat × α) :=
  match l with
  | [] => []
  | (k', v') :: rest =>
      if k = k' then rest else (k', v') :: odErase rest k

/-- Default feature names `f0, f1, ...` (`__str_names(num)`). -/
def strNames (n : Nat) : List String :=
  (List.range n).map (fun i => "f" ++ toString i)

/-- The empty string (numpy string-array default fill). -/
def strEmpty : String := ""

/-- The class label `str(0)`. -/
def strZero : String := "0"

/-- The description prefix `get_feature_subset` prepends. -/
def subsetDescrPrefix : String := "Subset features derived from: \n "


/-- Source method `add_sample(sample_id, features, target, class_id, overwrite, feature_names)`.
Returns the state of the instance when the method returns or raises, together
with the raised exception if any.  Mirrors `BaseDataset.add_sample`:
duplicate-id, empty-features (`check_features`, which on the already-flat
inputs modelled here is otherwise the identity conversion to ndarray),
dimensionality and dtype errors are raised before any mutation, while a
feature-name mismatch is detected only after the three mappings have been
updated. -/
def addSampleRun (ds : Dataset) (sid : Nat) (features : List Val) (target : Int)
    (classId : Option String) (overwrite : Bool) (fnames : Option (List String)) :
    Dataset × Option PyError :=
  if (odLookup ds.data sid).isSome ∧ ¬ overwrite then
    (ds, some .valueError)
  else
    -- class_id = str(target) when not provided
    let cid := classId.getD (toString target)
    -- check_features: empty input raises ValueError
    if features.length = 0 then (ds, some .valueError)
    else
      if ds.data.length ≤ 0 then
        -- first samplet: fixes dtype (= ndarray, post check_features),
        -- num_features, and default names only when none were supplied
        ({ ds with data := odInsert sid features ds.data,
                   targets := odInsert sid target ds.targets,
                   classes := odInsert sid cid ds.classes,
                   dtype := some .ndarray,
                   num_features := features.length,
                   feature_names :=
                     match fnames with
                     | none => some (strNames features.length)
                     | some _ => ds.feature_names }, none)
      else
        if ds.num_features ≠ features.length then (ds, some .valueError)
        else if ds.dtype ≠ some PyType.ndarray then
          -- isinstance(ndarray-features, self.__dtype) fails, or __dtype is
          -- not a type at all: a TypeError either way
          (ds, some .typeError)
        else
          let ds1 := { ds with data := odInsert sid features ds.data,
                               targets := odInsert sid target ds.targets,
                               classes := odInsert sid cid ds.classes }
          match fnames with
          | none => (ds1, none)
          | some ns =>
            match ds.feature_names with
            | none => ({ ds1 with feature_names := some ns }, none)
            | some old =>
              if old = ns then (ds1, none) else (ds1, some .valueError)

/-- Source method `del_sample(sample_id)`: pops the id from all three mappings; a missing id
only produces a warning (the returned `Bool`) and no mutation. -/
def delSampleRun (ds : Dataset) (sid : Nat) : Dataset × Bool :=
  if (odLookup ds.data sid).isSome then
    ({ ds with data := odErase ds.data sid,
               classes := odErase ds.classes sid,
               targets := odErase ds.targets sid }, false)
  else
    (ds, true)

/-- The `data` property setter: checks only that the sample count matches the
existing `targets` and that at least one samplet is given, then replaces the
whole mapping, recomputes `num_features` from the first new vector and resets
the feature names to defaults. -/
def dataSetterRun (ds : Dataset) (values : List (Nat × List Val)) :
    Dataset × Option PyError :=
  if ds.targets.length ≠ values.length then (ds, some .valueError)
  else if values.length < 1 then (ds, some .valueError)
  else
    match values with
    | [] => (ds, some .valueError)
    | (_, v0) :: _ =>
      ({ ds with data := values,
                 num_features := v0.length,
                 feature_names := some (strNames v0.length) }, none)

/-- Are two lists equal as sets (`set(a) == set(b)`)? -/
def listSetEq (a b : List Nat) : Bool :=
  a.all (fun x => decide (x ∈ b)) && b.all (fun x => decide (x ∈ a))

/-- The `targets` property setter: checks count and exact key-set match. -/
def targetsSetterRun (ds : Dataset) (values : List (Nat × Int)) :
    Dataset × Option PyError :=
  if ds.data.length ≠ values.length then (ds, some .valueError)
  else if ¬ listSetEq (keysOf ds.data) (keysOf values) then (ds, some .valueError)
  else ({ ds with targets := values }, none)

/-- The `classes` property setter: checks count and exact key-set match. -/
def classesSetterRun (ds : Dataset) (values : List (Nat × String)) :
    Dataset × Option PyError :=
  if ds.data.length ≠ values.length then (ds, some .valueError)
  else if ¬ listSetEq (keysOf ds.data) (keysOf values) then (ds, some .valueError)
  else ({ ds with classes := values }, none)

/-- Source method `__setitem__(item, features)`: replaces the feature vector of an existing
samplet in place; a missing id raises `KeyError` without mutation. -/
def setItemRun (ds : Dataset) (sid : Nat) (features : List Val) :
    Dataset × Option PyError :=
  if (odLookup ds.data sid).isSome then
    -- check_features: empty input raises ValueError
    if features.length = 0 then (ds, some .valueError)
    else if ds.num_features ≠ features.length then (ds, some .valueError)
    else ({ ds with data := odInsert sid features ds.data }, none)
  else
    (ds, some .keyError)

/-- The bulk constructor (`data`/`targets`/`classes` branch of `__init__`).
`ctype` is the Python container type of the supplied feature vectors (all call
sites in the source pass one uniform container type).  `__validate` checks the
three mappings have equal lengths and equal key sets, then reads `.size` off
every vector (a plain `list` has no `.size`: `AttributeError`) and requires a
uniform size; an all-empty input then crashes on `sample_ids[0]`
(`IndexError`).  On success `dtype` is the container type of the first vector
and missing feature names default to `f0, f1, ...`. -/
def mkDataset (data : List (Nat × List Val)) (ctype : PyType)
    (targets : List (Nat × Int)) (classes : List (Nat × String))
    (descr : String) (fnames : Option (List String)) : Except PyError Dataset :=
  if ¬ (data.length = targets.length ∧ targets.length = classes.length) then
    .error .valueError
  else if ¬ (listSetEq (keysOf data) (keysOf targets) ∧
             listSetEq (keysOf data) (keysOf classes)) then
    .error .valueError
  else if ctype = PyType.pylist then .error .attributeError
  else if ((data.map (fun kv => kv.2.length)).dedup).length > 1 then
    .error .valueError
  else
    match data with
    | [] => .error .indexError
    | (_, v0) :: _ =>
      .ok { data := data, targets := targets, classes := classes,
            num_features := v0.length,
            dtype := some ctype,
            feature_names :=
              match fnames with
              | none => some (strNames v0.length)
              | some ns => some ns,
            description := descr }

/-- Numpy integer fancy indexing `v[idxs]` on a 1-D array: an index is valid
iff `-n ≤ i < n`, negative indices wrap around, anything else raises
`IndexError`. -/
def fancyIndex {α : Type} (v : List α) (dflt : α) (idxs : List Int) :
    Except PyError (List α) :=
  let n : Int := v.length
  if idxs.all (fun i => decide (-n ≤ i ∧ i < n)) then
    .ok (idxs.map (fun i => v.getD (if i < 0 then (i + n).toNat else i.toNat) dflt))
  else .error .indexError

/-- The `sub_data` dict comprehension of `get_feature_subset`: slices every
feature vector, propagating the first numpy `IndexError`. -/
def sliceData (data : List (Nat × List Val)) (idxs : List Int) :
    Except PyError (List (Nat × List Val)) :=
  match data with
  | [] => .ok []
  | (k, v) :: rest =>
    match fancyIndex v (Val.vint 0) idxs with
    | .error e => .error e
    | .ok v' =>
      match sliceData rest idxs with
      | .error e => .error e
      | .ok rest' => .ok ((k, v') :: rest')

/-- Source method `get_feature_subset(subset_idx)`.  Mirrors the source exactly: the guard is
`if not (max(subset_idx) < num_features) and (min(subset_idx) >= 0)`, whose
Python parse raises `UnboundLocalError` only when *all* indices are
non-negative and some index is too large; negative indices slip through to
numpy fancy indexing.  Then the data comprehension runs, `feature_names` is
sliced (`None` is not subscriptable: `TypeError`), and the subset is built via
the bulk constructor. -/
def getFeatureSubset (ds : Dataset) (idxs : List Int) : Except PyError Dataset :=
  match idxs.max?, idxs.min? with
  | some mx, some mn =>
    if ¬ (mx < (ds.num_features : Int)) ∧ 0 ≤ mn then .error .unboundLocalError
    else
      match sliceData ds.data idxs with
      | .error e => .error e
      | .ok subData =>
        match ds.feature_names with
        | none => .error .typeError
        | some names =>
          match fancyIndex names strEmpty idxs with
          | .error e => .error e
          | .ok subNames =>
            mkDataset subData PyType.ndarray ds.targets ds.classes
              (subsetDescrPrefix ++ ds.description)
              (some subNames)
  | _, _ => .error .valueError

/-- A dense numpy matrix: shape plus float entries. -/
structure NpMatrix where
  rows : Nat
  cols : Nat
  entries : List (List Rat)
deriving DecidableEq

/-- Source method `get_data_matrix_in_order(subset_ids)`: an empty id list only warns (the
returned `Bool`) and yields an empty `0 × 0` matrix; otherwise every id must
exist (`ValueError` if not) and the rows follow the order of `subset_ids`.
Row assignment into the preallocated matrix requires each vector to have
`num_features` entries (numpy broadcast `ValueError` otherwise). -/
def getDataMatrixInOrder (ds : Dataset) (ids : List Nat) :
    Except PyError (Bool × NpMatrix) :=
  if ids.length < 1 then .ok (true, ⟨0, 0, []⟩)
  else
    let numExisting := (ids.filter (fun k => (odLookup ds.data k).isSome)).length
    if numExisting < ids.length then .error .valueError
    else if ids.all (fun k => ((odLookup ds.data k).getD []).length = ds.num_features)
    then
      .ok (false, ⟨numExisting, ds.num_features,
            ids.map (fun k => ((odLookup ds.data k).getD []).map valToRat)⟩)
    else .error .valueError

/-- Modelled from the spec: the `class_set` property lives in the concrete
child class (not under `src/`); per the spec's summarize contract it is the set
of class labels present in the dataset. -/
def classSet (ds : Dataset) : List String :=
  (ds.classes.map Prod.snd).dedup

/-- The counter `class_sizes[c]`: the number of samplets carrying class label `c`
(`Counter(self.classes.values())`). -/
def countClass (ds : Dataset) (c : String) : Nat :=
  ((ds.classes.map Prod.snd).filter (fun x => decide (x = c))).length

/-- Source helper `keys_with_value(dictionary, value)`: the keys mapping to `value`. -/
def keysWithValue (l : List (Nat × String)) (v : String) : List Nat :=
  (keysOf l).filter (fun k => decide (odLookup l k = some v))

/-- Computes `⌊p * n⌋` for a rational `p` and a count `n`, computed on the numerator and
denominator so that concrete instances evaluate. -/
def floorMulNat (p : Rat) (n : Nat) : Nat :=
  ((p.num * n).fdiv p.den).toNat

/-- Modelled from the spec: `random_subset_ids(perc_per_class)` lives in the
concrete child class (not under `src/`); per spec §4.8 it draws the requested
fraction independently from each class's id pool.  The random draw is
abstracted by `oracle`, which reorders/selects from a pool; claims constrain it
to pick only pool members. -/
def randomSubsetIds (ds : Dataset) (p : Rat) (oracle : List Nat → List Nat) :
    List Nat :=
  (classSet ds).flatMap (fun c =>
    let pool := keysWithValue ds.classes c
    (oracle pool).take (floorMulNat p pool.length))

/-- Modelled from the spec: `random_subset_ids_by_count(count_per_class)` lives
in the concrete child class (not under `src/`); per spec §4.8 it draws the
requested count from each class's id pool (random draw abstracted by
`oracle`). -/
def randomSubsetIdsByCount (ds : Dataset) (cnt : Nat)
    (oracle : List Nat → List Nat) : List Nat :=
  (classSet ds).flatMap (fun c =>
    let pool := keysWithValue ds.classes c
    (oracle pool).take cnt)

/-- The `if/elif/else` selection ladder of `train_test_split_ids`:
* `count_per_class is None and (0.0 < train_perc < 1.0)` evaluates `0.0 < None`
  when neither argument is given (`TypeError` under Python 3);
* with only the fraction in `(0, 1)`: too-small fractions fail, otherwise the
  stratified fractional draw runs;
* with only a positive count: counts reaching the smallest class size fail,
  otherwise the stratified counted draw runs;
* every other combination falls through to the final `else` (`ValueError`). -/
def pickTrainIds (ds : Dataset) (trainPerc : Option Rat)
    (countPerClass : Option Int) (oracle : List Nat → List Nat)
    (smallest : Nat) : Except PyError (List Nat) :=
  match countPerClass, trainPerc with
  | none, none => .error .typeError
  | none, some p =>
    if 0 < p ∧ p < 1 then
      if p.num * smallest < p.den then .error .valueError
      else .ok (randomSubsetIds ds p oracle)
    else .error .valueError
  | some _, some _ => .error .valueError
  | some c, none =>
    if 0 < c then
      if (smallest : Int) ≤ c then .error .valueError
      else .ok (randomSubsetIdsByCount ds c.toNat oracle)
    else .error .valueError

/-- Source method `train_test_split_ids(train_perc, count_per_class)`.  Mirrors the branch
structure of the source under Python 3 semantics:
* `summarize_classes` / `np.min` first (`ValueError` on an empty class set);
* `count_per_class is None and (0.0 < train_perc < 1.0)` evaluates
  `0.0 < None` when neither argument is given: `TypeError`;
* the float test `train_perc < 1.0 / smallest` is modelled exactly by
  cross-multiplication (`smallest ≥ 1` whenever this point is reached);
* `test_set = list(set(keys) - set(train_set))`, then both sides must be
  non-empty. -/
def trainTestSplitIds (ds : Dataset) (trainPerc : Option Rat)
    (countPerClass : Option Int) (oracle : List Nat → List Nat) :
    Except PyError (List Nat × List Nat) :=
  let sizes := (classSet ds).map (fun c => countClass ds c)
  match sizes.min? with
  | none => .error .valueError
  | some smallest =>
    match pickTrainIds ds trainPerc countPerClass oracle smallest with
    | .error e => .error e
    | .ok trainSet =>
      let testSet := ((keysOf ds.data).filter (fun k => decide (k ∉ trainSet))).dedup
      if trainSet.length < 1 ∨ testSet.length < 1 then .error .valueError
      else .ok (trainSet, testSet)

/-- Numpy value equality of two scalars (`1 == 1.0` is true). -/
def valEq (a b : Val) : Bool :=
  decide (valToRat a = valToRat b)

/-- Numpy `np.all(u == v)` on 1-D arrays: elementwise when shapes match, a length-1
array broadcasts against the other operand, and incompatible shapes compare
unequal (`False`). -/
def npBroadcastEq (u v : List Val) : Bool :=
  if u.length = v.length then (List.zip u v).all (fun p => valEq p.1 p.2)
  else
    match u, v with
    | [x], _ => v.all (fun y => valEq x y)
    | _, [y] => u.all (fun x => valEq x y)
    | _, _ => false

/-- Python dict equality `dict(a) == dict(b)`: same key set and the same value
under every key. -/
def dictEq {α : Type} [DecidableEq α] (a b : List (Nat × α)) : Bool :=
  listSetEq (keysOf a) (keysOf b) &&
  (keysOf a).all (fun k => decide (odLookup a k = odLookup b k))

/-- Source method `__eq__`: same samplet id set, equal `classes` dicts, and
`np.all(self.data[key] == other.data[key])` for every key (the `id(...)`
shortcut in the source only short-circuits comparison of an object with
itself and is observationally transparent). Targets are not compared. -/
def dsEq (a b : Dataset) : Bool :=
  listSetEq (keysOf a.data) (keysOf b.data) &&
  dictEq a.classes b.classes &&
  (keysOf a.data).all (fun k =>
    npBroadcastEq ((odLookup a.data k).getD []) ((odLookup b.data k).getD []))

/-- Well-formedness of a dataset state: the three mappings share one key list
(the §3 invariant), keys are unique, and every vector has `num_features`
entries.  All datasets built through the public operations satisfy this. -/
def Wf (ds : Dataset) : Prop :=
  keysOf ds.targets = keysOf ds.data ∧
  keysOf ds.classes = keysOf ds.data ∧
  (keysOf ds.data).Nodup ∧
  ∀ kv ∈ ds.data, kv.2.length = ds.num_features

instance (ds : Dataset) : Decidable (Wf ds) := by
  unfold Wf; infer_instance

/-- The spec's equality notion (§4.9), amended for numpy broadcasting: same id
set, same class label under every id, and feature vectors that compare equal
under numpy broadcast semantics. -/
def specEquiv (a b : Dataset) : Prop :=
  (∀ k, k ∈ keysOf a.data ↔ k ∈ keysOf b.data) ∧
  (∀ k ∈ keysOf a.data, odLookup a.classes k = odLookup b.classes k) ∧
  (∀ k ∈ keysOf a.data, ∃ u v, odLookup a.data k = some u ∧
      odLookup b.data k = some v ∧ npBroadcastEq u v = true)

/-! ## Concrete fixture datasets (built through the public operations) -/

/-- One samplet `1 ↦ [5]`, target `0`, class `"0"`. -/
def dsW : Dataset := (addSampleRun emptyDataset 1 [Val.vint 5] 0 none false none).1

/-- One samplet `1 ↦ [1, 2]` with two features (default names `f0, f1`). -/
def ds2f : Dataset :=
  (addSampleRun emptyDataset 1 [Val.vint 1, Val.vint 2] 0 none false none).1

/-- Two samplets `1 ↦ [5]`, `2 ↦ [6]`, both of class `"0"`. -/
def dsW5 : Dataset :=
  (addSampleRun (addSampleRun emptyDataset 1 [Val.vint 5] 0 none false none).1
    2 [Val.vint 6] 0 none false none).1

/-- One samplet `1 ↦ [1, 1]`, target `0`, class `"0"`. -/
def dsA : Dataset :=
  (addSampleRun emptyDataset 1 [Val.vint 1, Val.vint 1] 0 none false none).1

/-- One samplet `1 ↦ [1]`, target `5`, class `"0"`. -/
def dsB : Dataset :=
  (addSampleRun emptyDataset 1 [Val.vint 1] 5 (some strZero) false none).1

/-- A dataset bulk-constructed from a non-ndarray array-like container, so its
`dtype` is not `ndarray`. -/
def dsSeries : Dataset :=
  match mkDataset [(1, [Val.vint 5])] .pyseries [(1, 0)] [(1, "0")] "" none with
  | .ok d => d
  | .error _ => emptyDataset

/-- A trivial selection oracle for the randomized draws: keep the pool as is. -/
def idOracle : List Nat → List Nat := fun l => l

/-- The rational 1/2, given in normal form so that the kernel can evaluate
with it. -/
def halfR : Rat := ⟨1, 2, by decide, Nat.coprime_one_left 2⟩

/-! ## Helper lemmas about the ordered-mapping primitives -/

theorem odLookup_isSome_iff {α : Type} (l : List (Nat × α)) (k : Nat) :
    (odLookup l k).isSome = true ↔ k ∈ keysOf l := by
  induction l with
  | nil => simp [odLookup, keysOf]
  | cons kv tl ih =>
    obtain ⟨k', v⟩ := kv
    by_cases h : k = k'
    · subst h; simp [odLookup, keysOf]
    · simp [odLookup, keysOf, h, ih]

theorem odLookup_eq_none_of_not_mem {α : Type} {l : List (Nat × α)} {k : Nat}
    (h : k ∉ keysOf l) : odLookup l k = none := by
  rcases heq : odLookup l k with _ | v
  · rfl
  · exact absurd ((odLookup_isSome_iff l k).1 (by simp [heq])) h

theorem mem_keysOf_of_lookup {α : Type} {l : List (Nat × α)} {k : Nat} {v : α}
    (h : odLookup l k = some v) : k ∈ keysOf l :=
  (odLookup_isSome_iff l k).1 (by simp [h])

theorem lookup_of_mem_keysOf {α : Type} {l : List (Nat × α)} {k : Nat}
    (h : k ∈ keysOf l) : ∃ v, odLookup l k = some v := by
  rcases heq : odLookup l k with _ | v
  · have hs := (odLookup_isSome_iff l k).2 h
    rw [heq] at hs
    simp at hs
  · exact ⟨v, rfl⟩

theorem odInsert_of_not_mem {α : Type} (v : α) {l : List (Nat × α)} {k : Nat}
    (h : k ∉ keysOf l) : odInsert k v l = l ++ [(k, v)] := by
  induction l with
  | nil => rfl
  | cons kv tl ih =>
    obtain ⟨k', v'⟩ := kv
    simp only [keysOf, List.map_cons, List.mem_cons] at h
    push_neg at h
    simp [odInsert, h.1, ih h.2]

theorem odErase_append_of_not_mem {α : Type} (v : α) {l : List (Nat × α)} {k : Nat}
    (h : k ∉ keysOf l) : odErase (l ++ [(k, v)]) k = l := by
  induction l with
  | nil => simp [odErase]
  | cons kv tl ih =>
    obtain ⟨k', v'⟩ := kv
    simp only [keysOf, List.map_cons, List.mem_cons] at h
    push_neg at h
    simp [odErase, h.1, ih h.2]

theorem odLookup_insert_self {α : Type} (k : Nat) (v : α) (l : List (Nat × α)) :
    odLookup (odInsert k v l) k = some v := by
  induction l with
  | nil => simp [odInsert, odLookup]
  | cons kv tl ih =>
    obtain ⟨k', v'⟩ := kv
    by_cases h : k = k'
    · subst h; simp [odInsert, odLookup]
    · simp [odInsert, odLookup, h, ih]

theorem odLookup_insert_ne {α : Type} (k k' : Nat) (v : α) (l : List (Nat × α))
    (h : k' ≠ k) : odLookup (odInsert k v l) k' = odLookup l k' := by
  induction l with
  | nil => simp [odInsert, odLookup, h]
  | cons kv tl ih =>
    obtain ⟨a, b⟩ := kv
    by_cases hk : k = a
    · subst hk; simp [odInsert, odLookup, h]
    · by_cases hk' : k' = a
      · subst hk'; simp [odInsert, odLookup, hk, Ne.symm hk]
      · simp [odInsert, odLookup, hk, hk', ih]

theorem keysOf_insert_of_mem {α : Type} (k : Nat) (v : α) {l : List (Nat × α)}
    (h : k ∈ keysOf l) : keysOf (odInsert k v l) = keysOf l := by
  induction l with
  | nil => cases h
  | cons kv tl ih =>
    obtain ⟨a, b⟩ := kv
    by_cases hk : k = a
    · subst hk; simp [odInsert, keysOf]
    · simp only [keysOf, List.map_cons, List.mem_cons] at h
      rcases h with h | h
      · exact absurd h hk
      · simp only [odInsert, hk, if_false, keysOf, List.map_cons]
        rw [show List.map Prod.fst (odInsert k v tl) = keysOf (odInsert k v tl) from rfl,
            ih h]
        rfl

/-- Every erroring run of `add_sample` leaves the instance either untouched or
with the new entry present in all three mappings. -/
theorem addSampleRun_error_cases (ds : Dataset) (sid : Nat) (f : List Val)
    (t : Int) (cid : Option String) (ov : Bool) (fn : Option (List String))
    (ds' : Dataset) (e : PyError)
    (h : addSampleRun ds sid f t cid ov fn = (ds', some e)) :
    ds' = ds ∨
      (ds'.data = odInsert sid f ds.data ∧
       ds'.targets = odInsert sid t ds.targets ∧
       ds'.classes = odInsert sid (cid.getD (toString t)) ds.classes) := by
  simp only [addSampleRun] at h
  repeat' split at h
  all_goals injection h with h1 h2
  all_goals try cases h2
  all_goals try exact Or.inl h1.symm
  all_goals (subst h1; exact Or.inr ⟨rfl, rfl, rfl⟩)

/-- Every successful run of `add_sample` installs the new entry in all three
mappings. -/
theorem addSampleRun_ok_shape (ds : Dataset) (sid : Nat) (f : List Val)
    (t : Int) (cid : Option String) (ov : Bool) (fn : Option (List String))
    (ds1 : Dataset)
    (h : addSampleRun ds sid f t cid ov fn = (ds1, none)) :
    ds1.data = odInsert sid f ds.data ∧
    ds1.targets = odInsert sid t ds.targets ∧
    ds1.classes = odInsert sid (cid.getD (toString t)) ds.classes := by
  simp only [addSampleRun] at h
  repeat' split at h
  all_goals injection h with h1 h2
  all_goals try cases h2
  all_goals (subst h1; exact ⟨rfl, rfl, rfl⟩)

/-- If some list element fails the predicate, the filtered list is strictly
shorter. -/
theorem length_filter_lt_of_mem {α : Type} {p : α → Bool} {l : List α} {x : α}
    (hx : x ∈ l) (hpx : p x = false) : (l.filter p).length < l.length := by
  induction l with
  | nil => cases hx
  | cons a tl ih =>
    rcases List.mem_cons.1 hx with rfl | hx
    · simp only [List.filter_cons, hpx]
      exact Nat.lt_succ_of_le (List.length_filter_le p tl)
    · rcases hpa : p a with _ | _
      · simp only [List.filter_cons, hpa]
        exact Nat.lt_succ_of_lt (ih hx)
      · simp only [List.filter_cons, hpa, List.length_cons]
        exact Nat.succ_lt_succ (ih hx)

/-! ## The claims -/

/-- C1 (code bug): the `data` property setter checks only the *count* of new
samplets against the existing `targets`, so a same-size dict with different
keys is accepted and leaves the three mappings with different key sets — the
spec's invariant 1 is violated by a public operation that completes without
error.  Concretely: on the one-samplet dataset `{1 ↦ [5]}` built through
`add_sample`, assigning `data = {2 ↦ [7]}` succeeds and leaves
`keys(data) = [2]` while `keys(targets) = [1]`. -/
theorem c1_data_setter_breaks_key_sync :
    (dataSetterRun dsW [(2, [Val.vint 7])]).2 = none ∧
    keysOf (dataSetterRun dsW [(2, [Val.vint 7])]).1.data = [2] ∧
    keysOf (dataSetterRun dsW [(2, [Val.vint 7])]).1.targets = [1] ∧
    keysOf (dataSetterRun dsW [(2, [Val.vint 7])]).1.data ≠
      keysOf (dataSetterRun dsW [(2, [Val.vint 7])]).1.targets := by
  decide

/-- C2 (counterexample): an erroring `add_sample` call does *not* always leave
the dataset unmutated.  On the two-feature dataset `{1 ↦ [1,2]}` (default
feature names `f0, f1`), adding samplet `2` with mismatching feature names
`g0, g1` raises `ValueError` — but only after all three mappings have gained
the new entry, so the post-state differs from the pre-state. -/
theorem c2_cex_name_mismatch_mutates :
    (addSampleRun ds2f 2 [Val.vint 3, Val.vint 4] 0 none false
        (some ["g0", "g1"])).2 = some .valueError ∧
    (addSampleRun ds2f 2 [Val.vint 3, Val.vint 4] 0 none false
        (some ["g0", "g1"])).1 ≠ ds2f ∧
    keysOf (addSampleRun ds2f 2 [Val.vint 3, Val.vint 4] 0 none false
        (some ["g0", "g1"])).1.data = [1, 2] := by
  decide

/-- C2 (amended): every call to `add_sample` that raises an error either
leaves all three mappings (and the rest of the state) unchanged — the
duplicate-id, empty-features, dimensionality and dtype errors — or, for the
feature-name-mismatch error, raises only after the new entry has been
installed in all three mappings; in either case there is no partial insert
across the three mappings. -/
theorem c2_add_sample_all_or_nothing (ds : Dataset) (sid : Nat) (f : List Val)
    (t : Int) (cid : Option String) (ov : Bool) (fn : Option (List String))
    (ds' : Dataset) (e : PyError)
    (h : addSampleRun ds sid f t cid ov fn = (ds', some e)) :
    ds' = ds ∨
      (ds'.data = odInsert sid f ds.data ∧
       ds'.targets = odInsert sid t ds.targets ∧
       ds'.classes = odInsert sid (cid.getD (toString t)) ds.classes) :=
  addSampleRun_error_cases ds sid f t cid ov fn ds' e h

/-- C2 witness: a concrete erroring call (duplicate id) leaving the dataset
unchanged or fully inserted. -/
theorem c2_add_sample_all_or_nothing_witness :
    (addSampleRun dsW 1 [Val.vint 8] 0 none false none).1 = dsW ∨
      ((addSampleRun dsW 1 [Val.vint 8] 0 none false none).1.data =
          odInsert 1 [Val.vint 8] dsW.data ∧
       (addSampleRun dsW 1 [Val.vint 8] 0 none false none).1.targets =
          odInsert 1 0 dsW.targets ∧
       (addSampleRun dsW 1 [Val.vint 8] 0 none false none).1.classes =
          odInsert 1 ((none : Option String).getD (toString (0 : Int))) dsW.classes) :=
  c2_add_sample_all_or_nothing dsW 1 [Val.vint 8] 0 none false none
    (addSampleRun dsW 1 [Val.vint 8] 0 none false none).1 .valueError (by decide)

/-- C4 (code bug): calling `train_test_split_ids` with *both* selection
arguments does fail with a `ValueError` as claimed, but calling it with
*neither* reaches the Python-3 comparison `0.0 < None` inside
`count_per_class is None and (0.0 < train_perc < 1.0)` and therefore raises
`TypeError`, not the claimed `ValueError`.  Evaluated on the one-samplet
dataset `{1 ↦ [5]}`. -/
theorem c4_split_arg_validation :
    trainTestSplitIds dsW none none idOracle = .error .typeError ∧
    trainTestSplitIds dsW (some halfR) (some 1) idOracle = .error .valueError := by
  decide

/-- C6 (counterexample): `add_sample` does not raise on an element-type
mismatch.  The dataset `{1 ↦ [1, 2]}` holds integer-typed vectors, yet adding
samplet `2` with the float vector `[1.0, 2.0]` succeeds, although every
element kind of the new vector differs from the stored ones. -/
theorem c6_cex_element_type_ignored :
    (addSampleRun ds2f 2 [Val.vfloat 1, Val.vfloat 2] 0 none false none).2 = none ∧
    ds2f.data = [(1, [Val.vint 1, Val.vint 2])] ∧
    (∀ v ∈ [Val.vfloat 1, Val.vfloat 2], v.kind = ElemKind.kfloat) ∧
    (∀ v ∈ [Val.vint 1, Val.vint 2], v.kind = ElemKind.kint) := by
  decide

/-- C6 (amended): after `check_features` the candidate vector is always an
`ndarray`, so on a non-empty dataset (fresh id, non-empty vector of matching
length) `add_sample` raises `TypeError` exactly when the stored `dtype` is not
the `ndarray` *container* type (as happens when the dataset was bulk-
constructed from another array-like container); the element types of the
vector are never consulted. -/
theorem c6_type_error_iff_dtype_not_ndarray (ds : Dataset) (sid : Nat)
    (f : List Val) (t : Int) (cid : Option String) (fn : Option (List String))
    (hne : ds.data ≠ []) (hfresh : sid ∉ keysOf ds.data) (hf : f ≠ [])
    (hdim : ds.num_features = f.length) :
    (addSampleRun ds sid f t cid false fn).2 = some .typeError ↔
      ds.dtype ≠ some PyType.ndarray := by
  have hlk : odLookup ds.data sid = none := odLookup_eq_none_of_not_mem hfresh
  have hlen0 : ¬ f.length = 0 := fun h0 => hf (List.length_eq_zero.mp h0)
  have hdslen : ¬ ds.data.length ≤ 0 := fun hle =>
    hne (List.length_eq_zero.mp (Nat.le_zero.mp hle))
  have hdim' : ¬ ds.num_features ≠ f.length := by simp [hdim]
  by_cases hdt : ds.dtype = some PyType.ndarray
  · have hdt' : ¬ ds.dtype ≠ some PyType.ndarray := by simp [hdt]
    rcases fn with _ | ns
    · simp [addSampleRun, hlk, hlen0, hdslen, hdim', hdt', hdt]
    · rcases hfn : ds.feature_names with _ | old
      · simp [addSampleRun, hlk, hlen0, hdslen, hdim', hdt', hdt, hfn]
      · by_cases hns : old = ns
        · simp [addSampleRun, hlk, hlen0, hdslen, hdim', hdt', hdt, hfn, hns]
        · simp [addSampleRun, hlk, hlen0, hdslen, hdim', hdt', hdt, hfn, hns]
  · have hdt' : ds.dtype ≠ some PyType.ndarray := hdt
    simp [addSampleRun, hlk, hlen0, hdslen, hdim', hdt']

/-- C6 witness: on a dataset bulk-constructed from a non-ndarray container,
adding a fresh samplet of the right length raises `TypeError`. -/
theorem c6_type_error_iff_dtype_not_ndarray_witness :
    (addSampleRun dsSeries 2 [Val.vint 7] 0 none false none).2 = some .typeError :=
  (c6_type_error_iff_dtype_not_ndarray dsSeries 2 [Val.vint 7] 0 none none
    (by decide) (by decide) (by decide) (by decide)).mpr (by decide)

/-- C7: adding a fresh samplet and then deleting it restores all three
mappings exactly (same id list, same per-id targets, classes and feature
vectors); the claim's (key-set, contents)-equality follows. -/
theorem c7_add_then_del_restores (ds : Dataset) (sid : Nat) (f : List Val)
    (t : Int) (cid : Option String) (fn : Option (List String)) (ds1 : Dataset)
    (hd : sid ∉ keysOf ds.data) (ht : sid ∉ keysOf ds.targets)
    (hc : sid ∉ keysOf ds.classes)
    (hrun : addSampleRun ds sid f t cid false fn = (ds1, none)) :
    (delSampleRun ds1 sid).1.data = ds.data ∧
    (delSampleRun ds1 sid).1.targets = ds.targets ∧
    (delSampleRun ds1 sid).1.classes = ds.classes := by
  obtain ⟨h1, h2, h3⟩ := addSampleRun_ok_shape ds sid f t cid false fn ds1 hrun
  have hmem : (odLookup ds1.data sid).isSome = true := by
    rw [h1, odLookup_insert_self]
    rfl
  simp only [delSampleRun, hmem, if_true]
  refine ⟨?_, ?_, ?_⟩
  · show odErase ds1.data sid = ds.data
    rw [h1, odInsert_of_not_mem _ hd, odErase_append_of_not_mem _ hd]
  · show odErase ds1.targets sid = ds.targets
    rw [h2, odInsert_of_not_mem _ ht, odErase_append_of_not_mem _ ht]
  · show odErase ds1.classes sid = ds.classes
    rw [h3, odInsert_of_not_mem _ hc, odErase_append_of_not_mem _ hc]

/-- C7 witness: add samplet `2` to the one-samplet dataset and delete it
again; the three mappings are restored. -/
theorem c7_add_then_del_restores_witness :
    (delSampleRun (addSampleRun dsW 2 [Val.vint 9] 7 none false none).1 2).1.data
        = dsW.data ∧
    (delSampleRun (addSampleRun dsW 2 [Val.vint 9] 7 none false none).1 2).1.targets
        = dsW.targets ∧
    (delSampleRun (addSampleRun dsW 2 [Val.vint 9] 7 none false none).1 2).1.classes
        = dsW.classes :=
  c7_add_then_del_restores dsW 2 [Val.vint 9] 7 none none
    (addSampleRun dsW 2 [Val.vint 9] 7 none false none).1
    (by decide) (by decide) (by decide) (by decide)

/-- C9: `get_data_matrix_in_order` called with an empty id list does not
raise — it warns and returns an empty `0 × 0` matrix — while for a non-empty
list any absent id raises `ValueError`. -/
theorem c9_matrix_in_order_empty_vs_missing (ds : Dataset) :
    getDataMatrixInOrder ds [] = .ok (true, ⟨0, 0, []⟩) ∧
    ∀ ids : List Nat, ids ≠ [] → (∃ k ∈ ids, k ∉ keysOf ds.data) →
      getDataMatrixInOrder ds ids = .error .valueError := by
  constructor
  · rfl
  · intro ids hne hex
    obtain ⟨k, hk, hkabs⟩ := hex
    have hlen : ¬ ids.length < 1 := by
      intro habs
      exact hne (List.length_eq_zero.mp (Nat.lt_one_iff.mp habs))
    have hfilter :
        ((ids.filter (fun k => (odLookup ds.data k).isSome)).length < ids.length) := by
      refine length_filter_lt_of_mem hk ?_
      have := odLookup_eq_none_of_not_mem hkabs
      simp [this]
    simp only [getDataMatrixInOrder, if_neg hlen, if_pos hfilter]

/-- C9 witness: on the one-samplet dataset, the empty list yields the empty
matrix and the absent id `5` raises. -/
theorem c9_matrix_in_order_empty_vs_missing_witness :
    getDataMatrixInOrder dsW [] = .ok (true, ⟨0, 0, []⟩) ∧
    getDataMatrixInOrder dsW [5] = .error .valueError :=
  ⟨(c9_matrix_in_order_empty_vs_missing dsW).1,
   (c9_matrix_in_order_empty_vs_missing dsW).2 [5] (by decide) (by decide)⟩

/-- C10: item assignment on a present id with a non-empty vector of matching
length succeeds and replaces only that samplet's feature vector — targets,
classes, all other feature vectors, the key order, `num_features` and
`feature_names` are unchanged; on an absent id it raises `KeyError` and
changes nothing. -/
theorem c10_setitem_frame (ds : Dataset) (sid : Nat) (v : List Val) :
    (sid ∈ keysOf ds.data → v ≠ [] → ds.num_features = v.length →
      (setItemRun ds sid v).2 = none ∧
      odLookup (setItemRun ds sid v).1.data sid = some v ∧
      (∀ k, k ≠ sid → odLookup (setItemRun ds sid v).1.data k = odLookup ds.data k) ∧
      keysOf (setItemRun ds sid v).1.data = keysOf ds.data ∧
      (setItemRun ds sid v).1.targets = ds.targets ∧
      (setItemRun ds sid v).1.classes = ds.classes ∧
      (setItemRun ds sid v).1.num_features = ds.num_features ∧
      (setItemRun ds sid v).1.feature_names = ds.feature_names) ∧
    (sid ∉ keysOf ds.data → setItemRun ds sid v = (ds, some .keyError)) := by
  constructor
  · intro hmem hv hlen
    have hs : (odLookup ds.data sid).isSome = true := (odLookup_isSome_iff _ _).2 hmem
    have hv0 : ¬ v.length = 0 := fun h0 => hv (List.length_eq_zero.mp h0)
    simp only [setItemRun, hs, if_true, hv0, if_false, hlen, ne_eq,
      not_true_eq_false, ite_false]
    refine ⟨by trivial, odLookup_insert_self sid v ds.data,
      fun k hk => odLookup_insert_ne sid k v ds.data hk,
      keysOf_insert_of_mem sid v hmem, by trivial, by trivial, by trivial, by trivial⟩
  · intro habs
    have hs : (odLookup ds.data sid).isSome = false := by
      simp [odLookup_eq_none_of_not_mem habs]
    simp [setItemRun, hs]

/-- C10 witness: replace the vector of samplet `1` in the one-samplet dataset;
also the absent id `3` raises `KeyError` without mutation. -/
theorem c10_setitem_frame_witness :
    ((setItemRun dsW 1 [Val.vint 9]).2 = none ∧
      odLookup (setItemRun dsW 1 [Val.vint 9]).1.data 1 = some [Val.vint 9] ∧
      (setItemRun dsW 1 [Val.vint 9]).1.targets = dsW.targets) ∧
    setItemRun dsW 3 [Val.vint 9] = (dsW, some .keyError) :=
  ⟨(fun h => ⟨h.1, h.2.1, h.2.2.2.2.1⟩)
      ((c10_setitem_frame dsW 1 [Val.vint 9]).1 (by decide) (by decide) (by decide)),
   (c10_setitem_frame dsW 3 [Val.vint 9]).2 (by decide)⟩

/-- Members of the stratified fractional draw come from the `classes` keys. -/
theorem randomSubsetIds_subset (ds : Dataset) (p : Rat)
    (oracle : List Nat → List Nat) (ho : ∀ l x, x ∈ oracle l → x ∈ l) :
    ∀ x ∈ randomSubsetIds ds p oracle, x ∈ keysOf ds.classes := by
  intro x hx
  simp only [randomSubsetIds] at hx
  rw [List.mem_flatMap] at hx
  obtain ⟨c, _, hx⟩ := hx
  have h1 := List.take_subset _ _ hx
  have h2 := ho _ _ h1
  simp only [keysWithValue] at h2
  exact List.mem_of_mem_filter h2

/-- Members of the stratified counted draw come from the `classes` keys. -/
theorem randomSubsetIdsByCount_subset (ds : Dataset) (cnt : Nat)
    (oracle : List Nat → List Nat) (ho : ∀ l x, x ∈ oracle l → x ∈ l) :
    ∀ x ∈ randomSubsetIdsByCount ds cnt oracle, x ∈ keysOf ds.classes := by
  intro x hx
  simp only [randomSubsetIdsByCount] at hx
  rw [List.mem_flatMap] at hx
  obtain ⟨c, _, hx⟩ := hx
  have h1 := List.take_subset _ _ hx
  have h2 := ho _ _ h1
  simp only [keysWithValue] at h2
  exact List.mem_of_mem_filter h2

/-- Whatever branch of the selection ladder succeeds, the picked train ids all
come from the `classes` keys. -/
theorem pickTrainIds_subset (ds : Dataset) (perc : Option Rat) (cnt : Option Int)
    (oracle : List Nat → List Nat) (smallest : Nat) (trainSet : List Nat)
    (ho : ∀ l x, x ∈ oracle l → x ∈ l)
    (h : pickTrainIds ds perc cnt oracle smallest = .ok trainSet) :
    ∀ x ∈ trainSet, x ∈ keysOf ds.classes := by
  unfold pickTrainIds at h
  repeat' split at h
  all_goals try cases h
  · exact randomSubsetIds_subset ds _ oracle ho
  · exact randomSubsetIdsByCount_subset ds _ oracle ho

/-- C5: whenever `train_test_split_ids` returns normally, the two id lists are
disjoint, both non-empty, and together they cover exactly the samplet id set.
The stratified random draws live in the child class (outside `src/`) and are
modelled from the spec via a selection `oracle` constrained to pick only from
the pool it is given; `hwf` is the §3 invariant tying `classes` keys to `data`
keys. -/
theorem c5_split_is_partition (ds : Dataset) (perc : Option Rat) (cnt : Option Int)
    (oracle : List Nat → List Nat)
    (ho : ∀ l x, x ∈ oracle l → x ∈ l)
    (hwf : ∀ k ∈ keysOf ds.classes, k ∈ keysOf ds.data)
    (tr te : List Nat)
    (h : trainTestSplitIds ds perc cnt oracle = .ok (tr, te)) :
    (∀ x, x ∈ tr → x ∉ te) ∧ tr ≠ [] ∧ te ≠ [] ∧
    (∀ x, (x ∈ tr ∨ x ∈ te) ↔ x ∈ keysOf ds.data) := by
  simp only [trainTestSplitIds] at h
  split at h
  · cases h
  · rename_i smallest hmin
    split at h
    · cases h
    · rename_i trainSet hpick
      split at h
      · cases h
      · rename_i hlen
        have hh := Except.ok.inj h
        have htr : tr = trainSet := (congrArg Prod.fst hh).symm
        have hte : te =
            ((keysOf ds.data).filter (fun k => decide (k ∉ trainSet))).dedup :=
          (congrArg Prod.snd hh).symm
        subst htr
        subst hte
        push_neg at hlen
        have hsub : ∀ x ∈ tr, x ∈ keysOf ds.data := fun x hx =>
          hwf x (pickTrainIds_subset ds perc cnt oracle smallest tr ho hpick x hx)
        refine ⟨?_, ?_, ?_, ?_⟩
        · intro x hx hxe
          rw [List.mem_dedup, List.mem_filter] at hxe
          exact (of_decide_eq_true hxe.2) hx
        · exact List.ne_nil_of_length_pos (Nat.lt_of_lt_of_le Nat.zero_lt_one hlen.1)
        · exact List.ne_nil_of_length_pos (Nat.lt_of_lt_of_le Nat.zero_lt_one hlen.2)
        · intro x
          constructor
          · rintro (hx | hx)
            · exact hsub x hx
            · rw [List.mem_dedup, List.mem_filter] at hx
              exact hx.1
          · intro hx
            by_cases hxt : x ∈ tr
            · exact Or.inl hxt
            · refine Or.inr ?_
              rw [List.mem_dedup, List.mem_filter]
              exact ⟨hx, decide_eq_true hxt⟩

/-- C5 witness: on the two-samplet single-class dataset, a 1/2 fractional
split with the identity oracle returns the partition `([1], [2])`. -/
theorem c5_split_is_partition_witness :
    (∀ x, x ∈ [1] → x ∉ [2]) ∧ ([1] : List Nat) ≠ [] ∧ ([2] : List Nat) ≠ [] ∧
    (∀ x, (x ∈ [1] ∨ x ∈ [2]) ↔ x ∈ keysOf dsW5.data) :=
  c5_split_is_partition dsW5 (some halfR) none idOracle
    (fun _ _ hx => hx) (by decide) [1] [2] (by decide)

/-- The predicate `listSetEq` is `set(a) == set(b)`. -/
theorem listSetEq_iff (a b : List Nat) :
    listSetEq a b = true ↔ ∀ x, x ∈ a ↔ x ∈ b := by
  simp only [listSetEq, Bool.and_eq_true, List.all_eq_true, decide_eq_true_eq]
  constructor
  · rintro ⟨h1, h2⟩ x
    exact ⟨h1 x, h2 x⟩
  · intro h
    exact ⟨fun x hx => (h x).1 hx, fun x hx => (h x).2 hx⟩

/-- C8 (counterexample): `__eq__` can return true on datasets whose feature
vectors are *not* elementwise-identical.  `dsA` stores `1 ↦ [1, 1]`, `dsB`
stores `1 ↦ [1]` — same id set and class labels, different vectors — yet the
numpy comparison `[1, 1] == [1]` broadcasts to all-true, so the datasets
compare equal. -/
theorem c8_cex_broadcast_equality :
    dsEq dsA dsB = true ∧ odLookup dsA.data 1 ≠ odLookup dsB.data 1 := by
  decide

/-- C8 (amended): on well-formed datasets, `__eq__` returns true iff they have
the same samplet id set, the same class label under every id, and per-id
feature vectors that are equal under numpy broadcast semantics (equal length
and elementwise equal, or one side of length 1 matching every element of the
other); targets are not consulted. -/
theorem c8_eq_iff_broadcast_spec (a b : Dataset) (ha : Wf a) (hb : Wf b) :
    dsEq a b = true ↔ specEquiv a b := by
  obtain ⟨-, hac, -, -⟩ := ha
  obtain ⟨-, hbc, -, -⟩ := hb
  simp only [dsEq, dictEq, Bool.and_eq_true, List.all_eq_true, decide_eq_true_eq,
    listSetEq_iff, hac, hbc, specEquiv]
  constructor
  · rintro ⟨⟨hkeys, _, hcv⟩, hdata⟩
    refine ⟨hkeys, hcv, ?_⟩
    intro k hk
    obtain ⟨u, hu⟩ := lookup_of_mem_keysOf hk
    obtain ⟨v, hv⟩ := lookup_of_mem_keysOf ((hkeys k).1 hk)
    refine ⟨u, v, hu, hv, ?_⟩
    have hbk := hdata k hk
    rw [hu, hv] at hbk
    simpa using hbk
  · rintro ⟨hkeys, hcv, hdata⟩
    refine ⟨⟨hkeys, hkeys, hcv⟩, ?_⟩
    intro k hk
    obtain ⟨u, v, hu, hv, huv⟩ := hdata k hk
    rw [hu, hv]
    simpa using huv

/-- C8 witness: the amended equivalence applied to the concrete one-samplet
dataset compared with itself. -/
theorem c8_eq_iff_broadcast_spec_witness : specEquiv dsW dsW :=
  (c8_eq_iff_broadcast_spec dsW dsW (by decide) (by decide)).mp (by decide)

theorem int_max?_spec {l : List Int} {mx : Int} (h : l.max? = some mx) :
    mx ∈ l ∧ ∀ i ∈ l, i ≤ mx :=
  (@List.max?_eq_some_iff Int mx _ _ ⟨fun h1 h2 => le_antisymm h1 h2⟩
    le_refl max_choice (fun _ _ _ => max_le_iff)).1 h

theorem int_min?_spec {l : List Int} {mn : Int} (h : l.min? = some mn) :
    mn ∈ l ∧ ∀ i ∈ l, mn ≤ i :=
  (@List.min?_eq_some_iff Int mn _ _ ⟨fun h1 h2 => le_antisymm h1 h2⟩
    le_refl min_choice (fun _ _ _ => le_min_iff)).1 h

theorem max?_isSome_of_ne_nil {l : List Int} (h : l ≠ []) :
    ∃ mx, l.max? = some mx := by
  cases l with
  | nil => exact absurd rfl h
  | cons a tl => exact ⟨tl.foldl max a, rfl⟩

theorem min?_isSome_of_ne_nil {l : List Int} (h : l ≠ []) :
    ∃ mn, l.min? = some mn := by
  cases l with
  | nil => exact absurd rfl h
  | cons a tl => exact ⟨tl.foldl min a, rfl⟩

/-- Fancy indexing with all indices in `[0, len)` succeeds and selects
positionally. -/
theorem fancyIndex_ok_of_pos {α : Type} (v : List α) (d : α) (idxs : List Int)
    (hin : ∀ i ∈ idxs, 0 ≤ i ∧ i < (v.length : Int)) :
    fancyIndex v d idxs = .ok (idxs.map (fun i => v.getD i.toNat d)) := by
  have hall : idxs.all
      (fun i => decide (-(v.length : Int) ≤ i ∧ i < (v.length : Int))) = true := by
    rw [List.all_eq_true]
    intro i hi
    have hii := hin i hi
    refine decide_eq_true ⟨le_trans ?_ hii.1, hii.2⟩
    omega
  simp only [fancyIndex, hall, if_true]
  congr 1
  apply List.map_congr_left
  intro i hi
  rw [if_neg (not_lt.2 (hin i hi).1)]

/-- Fancy indexing only ever fails with `IndexError`. -/
theorem fancyIndex_error_eq {α : Type} {v : List α} {d : α} {idxs : List Int}
    {e : PyError} (h : fancyIndex v d idxs = .error e) : e = .indexError := by
  simp only [fancyIndex] at h
  split at h
  · cases h
  · injection h with h
    exact h.symm

/-- The `sub_data` comprehension with uniform vectors and in-range indices. -/
theorem sliceData_ok (l : List (Nat × List Val)) (idxs : List Int) (nf : Nat)
    (hvec : ∀ kv ∈ l, kv.2.length = nf)
    (hin : ∀ i ∈ idxs, 0 ≤ i ∧ i < (nf : Int)) :
    sliceData l idxs = .ok (l.map (fun kv =>
      (kv.1, idxs.map (fun i => kv.2.getD i.toNat (Val.vint 0))))) := by
  induction l with
  | nil => rfl
  | cons kv tl ih =>
    obtain ⟨k, v⟩ := kv
    have hv : v.length = nf := hvec (k, v) (List.mem_cons_self _ _)
    have hfan := fancyIndex_ok_of_pos v (Val.vint 0) idxs
      (by intro i hi; rw [hv]; exact hin i hi)
    have hrest := ih (fun kv hkv => hvec kv (List.mem_cons_of_mem _ hkv))
    simp only [sliceData, hfan, hrest, List.map_cons]

/-- The `sub_data` comprehension only ever fails with `IndexError`. -/
theorem sliceData_error_eq (l : List (Nat × List Val)) (idxs : List Int)
    (e : PyError) (h : sliceData l idxs = .error e) : e = .indexError := by
  induction l with
  | nil => cases h
  | cons kv tl ih =>
    obtain ⟨k, v⟩ := kv
    simp only [sliceData] at h
    split at h
    · rename_i e' hf
      injection h with h
      subst h
      exact fancyIndex_error_eq hf
    · split at h
      · rename_i e' hrest
        injection h with h
        subst h
        exact ih hrest
      · cases h

/-- A list whose elements are all equal dedups to length at most one. -/
theorem dedup_length_le_one {α : Type} [DecidableEq α] (l : List α) (c : α)
    (h : ∀ x ∈ l, x = c) : l.dedup.length ≤ 1 := by
  induction l with
  | nil => simp
  | cons a tl ih =>
    have ha : a = c := h a (List.mem_cons_self a tl)
    by_cases hmem : a ∈ tl
    · rw [List.dedup_cons_of_mem hmem]
      exact ih (fun x hx => h x (List.mem_cons_of_mem a hx))
    · rw [List.dedup_cons_of_not_mem hmem]
      cases tl with
      | nil => simp
      | cons b tb =>
        exfalso
        apply hmem
        have hb : b = c := h b (by simp)
        rw [ha, hb]
        exact List.mem_cons_self c tb

/-- Mapping a key-preserving function over an ordered mapping keeps its keys. -/
theorem keysOf_map_snd {α β : Type} (l : List (Nat × α)) (g : Nat × α → β) :
    keysOf (l.map (fun kv => (kv.1, g kv))) = keysOf l := by
  induction l with
  | nil => rfl
  | cons kv tl ih => simp [keysOf] at ih ⊢

theorem length_eq_of_keysOf_eq {α β : Type} {a : List (Nat × α)}
    {b : List (Nat × β)} (h : keysOf a = keysOf b) : a.length = b.length := by
  have := congrArg List.length h
  simpa [keysOf] using this

theorem listSetEq_of_eq {a b : List Nat} (h : a = b) : listSetEq a b = true := by
  subst h
  exact (listSetEq_iff a a).2 (fun _ => Iff.rfl)

/-- The bulk constructor succeeds on matching non-empty ndarray input with
uniform vector lengths, producing exactly the expected instance. -/
theorem mkDataset_ok (k0 : Nat) (v0 : List Val) (rest : List (Nat × List Val))
    (targets : List (Nat × Int)) (classes : List (Nat × String))
    (descr : String) (ns : List String)
    (hlen1 : ((k0, v0) :: rest).length = targets.length)
    (hlen2 : targets.length = classes.length)
    (hset1 : listSetEq (keysOf ((k0, v0) :: rest)) (keysOf targets) = true)
    (hset2 : listSetEq (keysOf ((k0, v0) :: rest)) (keysOf classes) = true)
    (huniform : ∀ kv ∈ (k0, v0) :: rest, kv.2.length = v0.length) :
    mkDataset ((k0, v0) :: rest) PyType.ndarray targets classes descr (some ns) =
      .ok { data := (k0, v0) :: rest, targets := targets, classes := classes,
            num_features := v0.length, dtype := some PyType.ndarray,
            feature_names := some ns, description := descr } := by
  have hded : ¬ ((((k0, v0) :: rest).map (fun kv => kv.2.length)).dedup).length > 1 := by
    have hle := dedup_length_le_one
      (((k0, v0) :: rest).map (fun kv => kv.2.length)) v0.length ?_
    · omega
    · intro x hx
      obtain ⟨kv, hkv, rfl⟩ := List.mem_map.1 hx
      exact huniform kv hkv
  rw [mkDataset, if_neg (by simp [hlen1, hlen2]), if_neg (by simp [hset1, hset2]),
     if_neg (by simp), if_neg hded]

/-- The bulk constructor never raises `UnboundLocalError`. -/
theorem mkDataset_ne_ule (data : List (Nat × List Val)) (ct : PyType)
    (targets : List (Nat × Int)) (classes : List (Nat × String))
    (descr : String) (fns : Option (List String)) :
    mkDataset data ct targets classes descr fns ≠ .error .unboundLocalError := by
  unfold mkDataset
  intro h
  repeat' split at h
  all_goals simp_all

/-- C3 (counterexample): on the two-feature dataset `{1 ↦ [1, 2]}`, the index
list `[-1]` contains an index outside `[0, feature_count)`, yet
`get_feature_subset` raises nothing: the parenthesization of the bound check
skips lists with a negative entry, and numpy then accepts `-1` with
wraparound, returning the last column. -/
theorem c3_cex_negative_index_accepted :
    getFeatureSubset ds2f [-1] =
      .ok { data := [(1, [Val.vint 2])], targets := [(1, 0)],
            classes := [(1, "0")], num_features := 1,
            dtype := some PyType.ndarray, feature_names := some ["f1"],
            description := "Subset features derived from: \n " } ∧
    ¬ (0 ≤ (-1 : Int)) := by
  decide

/-- C3 (amended): on a well-formed non-empty dataset with feature names, for a
non-empty index list: all indices in `[0, feature_count)` yield the dataset
restricted to exactly those columns (data and names); an all-non-negative list
with some index `≥ feature_count` raises `UnboundLocalError` (not
`IndexError`); and a list containing any negative index never triggers that
explicit bounds error (numpy either wraps the index or raises its own
`IndexError`). -/
theorem c3_feature_subset_characterization (ds : Dataset) (idxs : List Int)
    (ns : List String)
    (hne : ds.data ≠ []) (hnil : idxs ≠ [])
    (hwf_t : keysOf ds.targets = keysOf ds.data)
    (hwf_c : keysOf ds.classes = keysOf ds.data)
    (hvec : ∀ kv ∈ ds.data, kv.2.length = ds.num_features)
    (hnames : ds.feature_names = some ns)
    (hnlen : ns.length = ds.num_features) :
    ((∀ i ∈ idxs, 0 ≤ i ∧ i < (ds.num_features : Int)) →
      getFeatureSubset ds idxs =
        .ok { data := ds.data.map (fun kv =>
                (kv.1, idxs.map (fun i => kv.2.getD i.toNat (Val.vint 0)))),
              targets := ds.targets, classes := ds.classes,
              num_features := idxs.length,
              dtype := some PyType.ndarray,
              feature_names := some (idxs.map (fun i => ns.getD i.toNat strEmpty)),
              description := subsetDescrPrefix ++ ds.description }) ∧
    ((∀ i ∈ idxs, 0 ≤ i) → (∃ i ∈ idxs, (ds.num_features : Int) ≤ i) →
      getFeatureSubset ds idxs = .error .unboundLocalError) ∧
    ((∃ i ∈ idxs, i < 0) →
      getFeatureSubset ds idxs ≠ .error .unboundLocalError) := by
  obtain ⟨mx, hmx⟩ := max?_isSome_of_ne_nil hnil
  obtain ⟨mn, hmn⟩ := min?_isSome_of_ne_nil hnil
  obtain ⟨hmxmem, hmxle⟩ := int_max?_spec hmx
  obtain ⟨hmnmem, hmnle⟩ := int_min?_spec hmn
  refine ⟨?_, ?_, ?_⟩
  · intro hin
    have hguard : ¬ (¬ (mx < (ds.num_features : Int)) ∧ 0 ≤ mn) := by
      intro hcon
      exact hcon.1 (hin mx hmxmem).2
    have hnsfan := fancyIndex_ok_of_pos ns strEmpty idxs (by
      intro i hi
      refine ⟨(hin i hi).1, ?_⟩
      rw [hnlen]
      exact (hin i hi).2)
    obtain ⟨⟨k0, v0⟩, dtl, hds⟩ := List.exists_cons_of_ne_nil hne
    simp only [getFeatureSubset, hmx, hmn, if_neg hguard,
      sliceData_ok ds.data idxs ds.num_features hvec hin, hnames, hnsfan]
    rw [hds, List.map_cons]
    have hmk := mkDataset_ok k0 (idxs.map (fun i => v0.getD i.toNat (Val.vint 0)))
      (dtl.map (fun kv => (kv.1, idxs.map (fun i => kv.2.getD i.toNat (Val.vint 0)))))
      ds.targets ds.classes
      (subsetDescrPrefix ++ ds.description)
      (idxs.map (fun i => ns.getD i.toNat strEmpty)) ?_ ?_ ?_ ?_ ?_
    · rw [hmk]
      simp [List.length_map]
    · have h1 := length_eq_of_keysOf_eq hwf_t
      simp [List.length_map, h1, hds]
    · rw [length_eq_of_keysOf_eq hwf_t, length_eq_of_keysOf_eq hwf_c]
    · apply listSetEq_of_eq
      have hkm : keysOf (((k0, v0) :: dtl).map (fun kv =>
          (kv.1, idxs.map (fun i => kv.2.getD i.toNat (Val.vint 0))))) =
          keysOf ((k0, v0) :: dtl) := keysOf_map_snd _ _
      rw [List.map_cons] at hkm
      rw [hkm, ← hds]
      exact hwf_t.symm
    · apply listSetEq_of_eq
      have hkm : keysOf (((k0, v0) :: dtl).map (fun kv =>
          (kv.1, idxs.map (fun i => kv.2.getD i.toNat (Val.vint 0))))) =
          keysOf ((k0, v0) :: dtl) := keysOf_map_snd _ _
      rw [List.map_cons] at hkm
      rw [hkm, ← hds]
      exact hwf_c.symm
    · intro kv hkv
      rcases List.mem_cons.1 hkv with rfl | hkv
      · rfl
      · obtain ⟨kv', hkv', rfl⟩ := List.mem_map.1 hkv
        simp [List.length_map]
  · intro hpos hex
    obtain ⟨i, hi, hinf⟩ := hex
    have hguard : (¬ (mx < (ds.num_features : Int)) ∧ 0 ≤ mn) :=
      ⟨not_lt.2 (le_trans hinf (hmxle i hi)), hpos mn hmnmem⟩
    simp only [getFeatureSubset, hmx, hmn, if_pos hguard]
  · intro hneg
    obtain ⟨i, hi, hineg⟩ := hneg
    have hguard : ¬ (¬ (mx < (ds.num_features : Int)) ∧ 0 ≤ mn) := by
      intro hcon
      exact absurd (le_trans hcon.2 (hmnle i hi)) (not_le.2 hineg)
    simp only [getFeatureSubset, hmx, hmn, if_neg hguard]
    rcases hsd : sliceData ds.data idxs with e | subData
    · rw [sliceData_error_eq ds.data idxs e hsd]
      simp
    · dsimp only
      rcases hfn : ds.feature_names with _ | names
      · simp
      · dsimp only
        rcases hfi : fancyIndex names strEmpty idxs with e | subNames
        · rw [fancyIndex_error_eq hfi]
          simp
        · dsimp only
          exact mkDataset_ne_ule _ _ _ _ _ _

/-- C3 witness: selecting column `0` of the two-feature dataset yields the
one-column restriction with feature name `f0`. -/
theorem c3_feature_subset_characterization_witness :
    getFeatureSubset ds2f [0] =
      .ok { data := [(1, [Val.vint 1])], targets := [(1, 0)],
            classes := [(1, "0")], num_features := 1,
            dtype := some PyType.ndarray, feature_names := some ["f0"],
            description := "Subset features derived from: \n " } := by
  have h := (c3_feature_subset_characterization ds2f [0] ["f0", "f1"]
    (by decide) (by decide) (by decide) (by decide) (by decide) (by decide)
    (by decide)).1 (by decide)
  rw [h]
  decide

end Pyradigm
